import Mathlib

/-!
Verification of the go-log repository: a shallow embedding in Lean 4 of the
level parsing, the level gate, the line truncation, the dual-sink routing,
the async writer state machine, and the context carrier, together with
theorems settling the specification claims.

Machine integers: the Go type Level is int; it is embedded as Int.
Log lines ([]byte) are embedded as List UInt8.  Go strings are embedded as
Lean String; strings.ToLower is embedded as a per-character map using the
ASCII lowercase shift (Char.toLower), which agrees with Go on all ASCII
input, and all level names the parser recognises are ASCII.
-/

/-- The Go type Level int: smaller value means more severe. -/
abbrev Level := Int

/-- LogFatal Level = 1 shl iota, from level.go. -/
def LogFatal : Level := 1

/-- LogError = 2. -/
def LogError : Level := 2

/-- LogWarn = 4. -/
def LogWarn : Level := 4

/-- LogTrace = 8. -/
def LogTrace : Level := 8

/-- LogInfo = 16. -/
def LogInfo : Level := 16

/-- LogDebug = 32. -/
def LogDebug : Level := 32

/-- logMax = LogDebug + 1, the threshold used when no config is given. -/
def logMax : Level := LogDebug + 1

/-- logPrint = 0, the sentinel severity of Printf records. -/
def logPrint : Level := 0

/-- Embedding of strings.ToLower restricted to the ASCII case shift: each
character is mapped through the core Char.toLower (the A to Z shift by 32),
which agrees with the Go function on ASCII input. -/
def toLowerStr (s : String) : String :=
  String.mk (s.data.map Char.toLower)

/-- parseLevel from level.go: lower the input, then match the seven
recognised names; anything else (including the empty string) falls through
to LogDebug. -/
def parseLevel (level : String) : Level :=
  let l := toLowerStr level
  if l = "debug" then LogDebug
  else if l = "info" then LogInfo
  else if l = "trace" then LogTrace
  else if l = "warn" then LogWarn
  else if l = "warning" then LogWarn
  else if l = "error" then LogError
  else if l = "fatal" then LogFatal
  else LogDebug

/-- The severities a record can carry, as an enumeration used to quantify
claims: the six named levels of level.go plus the Printf sentinel. -/
inductive Sev where
  | print
  | fatal
  | error
  | warn
  | trace
  | info
  | debug
  deriving DecidableEq, Fintype

/-- The Level value the source assigns to each severity. -/
def levelValue : Sev → Level
  | .print => logPrint
  | .fatal => LogFatal
  | .error => LogError
  | .warn => LogWarn
  | .trace => LogTrace
  | .info => LogInfo
  | .debug => LogDebug

/-- Verbosity rank following the ordering stated by the spec,
Fatal < Error < Warn < Trace < Info < Debug, with Debug the most verbose
(largest rank).  The value at print is irrelevant: every use is guarded by
a print exclusion. -/
def verboseRank : Sev → Nat
  | .print => 6
  | .fatal => 0
  | .error => 1
  | .warn => 2
  | .trace => 3
  | .info => 4
  | .debug => 5

/-- The level gate at the top of logger.log: the record proceeds unless
maxLevel < level. -/
def levelEnabled (maxLevel level : Level) : Bool :=
  if maxLevel < level then false else true

/-- C1: a record at severity S passes the gate under threshold T exactly
when T is at least as verbose as S in the spec ordering; a Fatal record
passes under every configured threshold (every parseLevel output), and a
Print record likewise. -/
theorem levelGate_emits_iff :
    (∀ S T : Sev, S ≠ .print → T ≠ .print →
      (levelEnabled (levelValue T) (levelValue S) = true ↔
        verboseRank S ≤ verboseRank T))
    ∧ (∀ s : String, levelEnabled (parseLevel s) LogFatal = true)
    ∧ (∀ s : String, levelEnabled (parseLevel s) logPrint = true)
    ∧ (∀ s : String, ∃ T : Sev, T ≠ .print ∧ parseLevel s = levelValue T) := by
  refine ⟨by decide, ?_, ?_, ?_⟩
  · intro s
    simp only [parseLevel]
    split_ifs <;> decide
  · intro s
    simp only [parseLevel]
    split_ifs <;> decide
  · intro s
    simp only [parseLevel]
    split_ifs
    · exact ⟨.debug, by decide, rfl⟩
    · exact ⟨.info, by decide, rfl⟩
    · exact ⟨.trace, by decide, rfl⟩
    · exact ⟨.warn, by decide, rfl⟩
    · exact ⟨.warn, by decide, rfl⟩
    · exact ⟨.error, by decide, rfl⟩
    · exact ⟨.fatal, by decide, rfl⟩
    · exact ⟨.debug, by decide, rfl⟩

/-- Witness for C1 at concrete severities and thresholds. -/
theorem levelGate_emits_iff_witness :
    (levelEnabled (levelValue Sev.info) (levelValue Sev.error) = true)
    ∧ levelEnabled (parseLevel "info") LogFatal = true := by
  constructor
  · exact (levelGate_emits_iff.1 Sev.error Sev.info (by decide) (by decide)).mpr
      (by decide)
  · exact levelGate_emits_iff.2.1 "info"

/-- C8: level parsing is case insensitive (two inputs with the same
lowercase image parse identically), the seven recognised names map to
their severities, recognised names still parse correctly in upper or mixed
case, and every input whose lowercase image is unrecognised, the empty
string included, maps to LogDebug. -/
theorem parseLevel_spec :
    (∀ s t : String, toLowerStr s = toLowerStr t → parseLevel s = parseLevel t)
    ∧ (parseLevel "debug" = LogDebug ∧ parseLevel "info" = LogInfo
        ∧ parseLevel "trace" = LogTrace ∧ parseLevel "warn" = LogWarn
        ∧ parseLevel "warning" = LogWarn ∧ parseLevel "error" = LogError
        ∧ parseLevel "fatal" = LogFatal)
    ∧ (parseLevel "DEBUG" = LogDebug ∧ parseLevel "Info" = LogInfo
        ∧ parseLevel "TrAcE" = LogTrace ∧ parseLevel "WARN" = LogWarn
        ∧ parseLevel "Warning" = LogWarn ∧ parseLevel "ERROR" = LogError
        ∧ parseLevel "Fatal" = LogFatal)
    ∧ parseLevel "" = LogDebug
    ∧ (∀ s : String,
        toLowerStr s ∉ ["debug", "info", "trace", "warn", "warning",
          "error", "fatal"] → parseLevel s = LogDebug) := by
  refine ⟨?_, by decide, by decide, by decide, ?_⟩
  · intro s t h
    simp only [parseLevel]
    rw [h]
  · intro s h
    simp only [List.mem_cons, List.mem_singleton, not_or] at h
    simp only [parseLevel]
    split_ifs with h1 h2 h3 h4 h5 h6 h7 <;> simp_all

/-- Witness for C8: two spellings of the same name parse identically, and a
concrete unrecognised input maps to LogDebug. -/
theorem parseLevel_spec_witness :
    parseLevel "WaRn" = parseLevel "warn" ∧ parseLevel "verbose" = LogDebug := by
  constructor
  · exact parseLevel_spec.1 "WaRn" "warn" (by decide)
  · exact parseLevel_spec.2.2.2.2 "verbose" (by decide)

/-- A log line, the []byte payload handed to Write. -/
abbrev Line := List UInt8

/-- The two error conditions AsyncWriter.Write can report, mirroring
errAsyncWriterClosed and errAsyncWriterFull. -/
inductive AWErr where
  | closed
  | full
  deriving DecidableEq

/-- The wrapped io.WriteCloser underneath an AsyncWriter: the sequence of
lines written so far, whether Close was called on it, and the error its
Close call reports (none when it succeeds). -/
structure Sink where
  out : List Line
  isClosed : Bool
  closeErr : Option String
  deriving DecidableEq

/-- One blocking write on the underlying sink. -/
def Sink.write (s : Sink) (d : Line) : Sink :=
  { s with out := s.out ++ [d] }

/-- Closing the underlying sink: marks it closed and reports its error. -/
def Sink.close (s : Sink) : Sink × Option String :=
  ({ s with isClosed := true }, s.closeErr)

/-- The consumer draining a queue into the sink, as in AsyncWriter.flush:
items of length zero are flush sentinels and are skipped, every other item
is written, in queue order.  This is both the normal receive loop and the
final drain pass after the closing signal. -/
def Sink.drain (s : Sink) : List Line → Sink
  | [] => s
  | d :: rest => if d.length = 0 then s.drain rest else (s.write d).drain rest

/-- The AsyncWriter state: the bounded channel contents in FIFO order, the
channel capacity, the closed flag set by the consumer on shutdown, and the
wrapped sink. -/
structure AsyncWriter where
  queue : List Line
  cap : Nat
  closed : Bool
  sink : Sink
  deriving DecidableEq

/-- AsyncWriter.Write: empty data is a no-op success; a closed writer
reports the closed error; a non-blocking enqueue succeeds when the bounded
channel has room and otherwise drops the data with the full error.  The
function is total on the state, reflecting that the call never blocks. -/
def AsyncWriter.Write (w : AsyncWriter) (data : Line) :
    AsyncWriter × Nat × Option AWErr :=
  if data.length = 0 then (w, 0, none)
  else if w.closed then (w, 0, some .closed)
  else if w.queue.length < w.cap then
    ({ w with queue := w.queue ++ [data] }, data.length, none)
  else (w, 0, some .full)

/-- AsyncWriter.Flush: fails with the closed error when already closed;
otherwise the sentinel round trip guarantees everything queued before the
call has been handed to the sink when it returns. -/
def AsyncWriter.Flush (w : AsyncWriter) : AsyncWriter × Option AWErr :=
  if w.closed then (w, some .closed)
  else ({ w with queue := [], sink := w.sink.drain w.queue }, none)

/-- AsyncWriter.Close: a closed writer returns success immediately with no
state change; otherwise the consumer marks the writer closed, drains every
remaining queued item into the sink, and closes the sink.  The error value
of the sink close is discarded, as in the source, and every return path of
the Go function returns nil, so the result error is always none. -/
def AsyncWriter.Close (w : AsyncWriter) : AsyncWriter × Option String :=
  if w.closed then (w, none)
  else
    let s := Sink.drain w.sink w.queue
    ({ w with queue := [], closed := true, sink := (Sink.close s).1 }, none)

/-- The last error of a list, mirroring a loop that overwrites its error
variable with every non-nil error it meets. -/
def lastSome {α : Type} : List (Option α) → Option α
  | [] => none
  | e :: rest =>
    match lastSome rest with
    | some x => some x
    | none => e

/-- The loop body of logger.Flush and logger.Close: compute the error of
one writer and overwrite the error variable when it is non-nil. -/
def keepErr {α β : Type} (f : β → Option α) (err : Option α) (w : β) :
    Option α :=
  match f w with
  | some e => some e
  | none => err

/-- logger.Flush: loop over the writers, flush each, keep the error
variable overwritten by each non-nil flush error. -/
def loggerFlushErr (writers : List AsyncWriter) : Option AWErr :=
  writers.foldl (keepErr (fun w => (AsyncWriter.Flush w).2)) none

/-- logger.Close: loop over the writers, close each, keep the error
variable overwritten by each non-nil close error. -/
def loggerCloseErr (writers : List AsyncWriter) : Option String :=
  writers.foldl (keepErr (fun w => (AsyncWriter.Close w).2)) none

/-- A fold that overwrites its accumulator with every non-nil value
computes the last non-nil value, with the initial accumulator as
fallback. -/
theorem foldl_lastSome {α β : Type} (f : β → Option α) :
    ∀ (ws : List β) (acc : Option α),
      ws.foldl (keepErr f) acc
        = match lastSome (ws.map f) with | some x => some x | none => acc := by
  intro ws
  induction ws with
  | nil => intro acc; rfl
  | cons w rest ih =>
    intro acc
    simp only [List.foldl_cons, List.map_cons, lastSome]
    rw [ih]
    unfold keepErr
    cases lastSome (rest.map f) <;> cases f w <;> rfl

/-- A sink whose Close reports an input output error. -/
def leakySink : Sink :=
  { out := [], isClosed := false, closeErr := some "disk full" }

/-- An open writer over leakySink with one queued line. -/
def leakyWriter : AsyncWriter :=
  { queue := [[65]], cap := 4, closed := false, sink := leakySink }

/-- C3 counterexample: the underlying sink close fails (it reports an
error), the shutdown does close the sink, yet AsyncWriter.Close returns
success, not that error. -/
theorem asyncClose_sink_error_dropped :
    leakyWriter.sink.closeErr = some "disk full"
    ∧ ((AsyncWriter.Close leakyWriter).1).sink.isClosed = true
    ∧ (AsyncWriter.Close leakyWriter).2 = none
    ∧ (AsyncWriter.Close leakyWriter).2 ≠ leakyWriter.sink.closeErr := by
  decide

/-- C3 (amended): underlying sink close errors are discarded, not
propagated: AsyncWriter.Close always returns success, AsyncWriter.Flush
surfaces at most the writer-closed error and never a sink error, the
logger level Close always returns success, and the logger level Flush
surfaces the last error encountered across its writers, not the first and
not an aggregate. -/
theorem close_flush_error_surface :
    (∀ w : AsyncWriter, (AsyncWriter.Close w).2 = none)
    ∧ (∀ w : AsyncWriter, (AsyncWriter.Flush w).2 = none
        ∨ (AsyncWriter.Flush w).2 = some AWErr.closed)
    ∧ (∀ ws : List AsyncWriter, loggerCloseErr ws = none)
    ∧ (∀ ws : List AsyncWriter,
        loggerFlushErr ws
          = lastSome (ws.map (fun w => (AsyncWriter.Flush w).2))) := by
  have h1 : ∀ w : AsyncWriter, (AsyncWriter.Close w).2 = none := by
    intro w
    unfold AsyncWriter.Close
    split <;> rfl
  have hnone : ∀ l : List (Option String), (∀ e ∈ l, e = none) →
      lastSome l = none := by
    intro l
    induction l with
    | nil => intro; rfl
    | cons e rest ih =>
      intro h
      have he : e = none := h e (List.mem_cons_self e rest)
      have hr : lastSome rest = none :=
        ih (fun x hx => h x (List.mem_cons_of_mem e hx))
      simp only [lastSome, hr, he]
  refine ⟨h1, ?_, ?_, ?_⟩
  · intro w
    unfold AsyncWriter.Flush
    split
    · right; rfl
    · left; rfl
  · intro ws
    unfold loggerCloseErr
    have h := foldl_lastSome (fun w => (AsyncWriter.Close w).2) ws none
    have h2 : lastSome (ws.map fun w => (AsyncWriter.Close w).2) = none := by
      apply hnone
      intro e he
      rcases List.mem_map.mp he with ⟨w, _, hw⟩
      rw [← hw]
      exact h1 w
    rw [h2] at h
    simpa using h
  · intro ws
    unfold loggerFlushErr
    have h := foldl_lastSome (fun w => (AsyncWriter.Flush w).2) ws none
    cases hl : lastSome (ws.map fun w => (AsyncWriter.Flush w).2) <;>
      rw [hl] at h <;> simpa using h

/-- C4: AsyncWriter.Write, case by case: empty data is a success no-op with
zero bytes and unchanged state; on a closed writer it reports the closed
error; on a full bounded queue it reports the full error and the data is
dropped; otherwise the data is appended to the queue and its byte count is
returned.  The operation is a total function of the state, so no case
blocks the caller. -/
theorem asyncWrite_spec :
    ∀ (w : AsyncWriter) (data : Line),
      (data = [] → AsyncWriter.Write w data = (w, 0, none))
      ∧ (data ≠ [] → w.closed = true →
          AsyncWriter.Write w data = (w, 0, some AWErr.closed))
      ∧ (data ≠ [] → w.closed = false → w.cap ≤ w.queue.length →
          AsyncWriter.Write w data = (w, 0, some AWErr.full))
      ∧ (data ≠ [] → w.closed = false → w.queue.length < w.cap →
          AsyncWriter.Write w data
            = ({ w with queue := w.queue ++ [data] }, data.length, none)) := by
  intro w data
  refine ⟨?_, ?_, ?_, ?_⟩
  · intro h
    subst h
    rfl
  · intro h hc
    unfold AsyncWriter.Write
    rw [if_neg (by simpa using h), if_pos hc]
  · intro h hc hfull
    unfold AsyncWriter.Write
    rw [if_neg (by simpa using h), if_neg (by simp [hc]),
      if_neg (Nat.not_lt.mpr hfull)]
  · intro h hc hroom
    unfold AsyncWriter.Write
    rw [if_neg (by simpa using h), if_neg (by simp [hc]), if_pos hroom]

/-- An open writer with one queued line and room for one more. -/
def wOpen : AsyncWriter :=
  { queue := [[1]], cap := 2, closed := false,
    sink := { out := [], isClosed := false, closeErr := none } }

/-- A closed writer. -/
def wShut : AsyncWriter :=
  { queue := [], cap := 2, closed := true,
    sink := { out := [], isClosed := true, closeErr := none } }

/-- An open writer whose queue is at capacity. -/
def wFull : AsyncWriter :=
  { queue := [[1], [2]], cap := 2, closed := false,
    sink := { out := [], isClosed := false, closeErr := none } }

/-- Witness for C4 at concrete writers, one per case. -/
theorem asyncWrite_spec_witness :
    AsyncWriter.Write wOpen [] = (wOpen, 0, none)
    ∧ AsyncWriter.Write wShut [7] = (wShut, 0, some AWErr.closed)
    ∧ AsyncWriter.Write wFull [7] = (wFull, 0, some AWErr.full)
    ∧ AsyncWriter.Write wOpen [7]
        = ({ wOpen with queue := wOpen.queue ++ [[7]] }, 1, none) := by
  refine ⟨(asyncWrite_spec wOpen []).1 rfl,
    (asyncWrite_spec wShut [7]).2.1 (by decide) rfl,
    (asyncWrite_spec wFull [7]).2.2.1 (by decide) rfl (by decide),
    (asyncWrite_spec wOpen [7]).2.2.2 (by decide) rfl (by decide)⟩

/-- Drain writes exactly the nonempty queued lines, in queue order, after
whatever the sink already holds. -/
theorem sinkDrain_out :
    ∀ (q : List Line) (s : Sink),
      (Sink.drain s q).out = s.out ++ q.filter (fun d => d.length != 0) := by
  intro q
  induction q with
  | nil => intro s; simp [Sink.drain]
  | cons d rest ih =>
    intro s
    simp only [Sink.drain]
    split
    · rename_i h
      rw [ih]
      simp [List.filter_cons, h]
    · rename_i h
      rw [ih]
      simp only [Sink.write, List.filter_cons]
      have hd : (d.length != 0) = true := by
        simpa using h
      simp [hd]

/-- Splitting the queue between the normal loop and the final close drain
changes nothing: draining a concatenation equals draining the two parts in
sequence. -/
theorem sinkDrain_append :
    ∀ (q₁ q₂ : List Line) (s : Sink),
      Sink.drain s (q₁ ++ q₂) = Sink.drain (Sink.drain s q₁) q₂ := by
  intro q₁
  induction q₁ with
  | nil => intro q₂ s; rfl
  | cons d rest ih =>
    intro q₂ s
    simp only [List.cons_append, Sink.drain]
    split <;> exact ih q₂ _

/-- C6: FIFO within one AsyncWriter.  A batch consumed by the normal loop
followed by the final drain on close writes the same sequence as a single
drain of the whole queue, and a queue of successfully enqueued (hence
nonempty) lines reaches the sink verbatim, in enqueue order. -/
theorem asyncWriter_fifo :
    (∀ (s : Sink) (q₁ q₂ : List Line),
      Sink.drain s (q₁ ++ q₂) = Sink.drain (Sink.drain s q₁) q₂)
    ∧ (∀ (s : Sink) (lines : List Line), (∀ l ∈ lines, l ≠ []) →
        (Sink.drain s lines).out = s.out ++ lines) := by
  refine ⟨fun s q₁ q₂ => sinkDrain_append q₁ q₂ s, ?_⟩
  intro s lines h
  rw [sinkDrain_out]
  have : lines.filter (fun d => d.length != 0) = lines := by
    apply List.filter_eq_self.mpr
    intro a ha
    simpa using fun hlen => h a ha (List.length_eq_zero.mp hlen)
  rw [this]

/-- A sink that already holds one line, for the FIFO witness. -/
def sinkA : Sink :=
  { out := [[9]], isClosed := false, closeErr := none }

/-- Witness for C6: three enqueued lines reach the sink in enqueue order. -/
theorem asyncWriter_fifo_witness :
    (Sink.drain sinkA [[1], [2], [3]]).out = sinkA.out ++ [[1], [2], [3]] :=
  asyncWriter_fifo.2 sinkA [[1], [2], [3]] (by decide)

/-- C7: Close is idempotent: on an already closed writer it returns success
at once with no state change; every writer is in the Closed state after
Close; and a second Close after a first is the identity with success. -/
theorem asyncClose_idempotent :
    (∀ w : AsyncWriter, w.closed = true → AsyncWriter.Close w = (w, none))
    ∧ (∀ w : AsyncWriter, ((AsyncWriter.Close w).1).closed = true)
    ∧ (∀ w : AsyncWriter,
        AsyncWriter.Close ((AsyncWriter.Close w).1)
          = ((AsyncWriter.Close w).1, none)) := by
  have h1 : ∀ w : AsyncWriter, w.closed = true →
      AsyncWriter.Close w = (w, none) := by
    intro w h
    unfold AsyncWriter.Close
    rw [if_pos h]
  have h2 : ∀ w : AsyncWriter, ((AsyncWriter.Close w).1).closed = true := by
    intro w
    unfold AsyncWriter.Close
    split
    · rename_i h
      exact h
    · rfl
  exact ⟨h1, h2, fun w => h1 ((AsyncWriter.Close w).1) (h2 w)⟩

/-- Witness for C7: a concrete closed writer is returned unchanged with
success, and closing the open writer wOpen reaches the Closed state. -/
theorem asyncClose_idempotent_witness :
    AsyncWriter.Close wShut = (wShut, none)
    ∧ ((AsyncWriter.Close wOpen).1).closed = true :=
  ⟨asyncClose_idempotent.1 wShut rfl, asyncClose_idempotent.2.1 wOpen⟩

/-- maxLogLine = 4096, the fixed maximum rendered line length. -/
def maxLogLine : Nat := 4096

/-- The truncation step of logger.log: a rendered line longer than
maxLogLine bytes is cut to its first maxLogLine bytes; a shorter line is
left as is. -/
def truncateLine (line : Line) : Line :=
  if line.length > maxLogLine then line.take maxLogLine else line

/-- C5: a rendered line longer than 4096 bytes is passed on as exactly its
first 4096 bytes, a line of at most 4096 bytes is passed unchanged, and in
particular a 5000 byte line is stored as exactly its first 4096 bytes. -/
theorem truncate_spec :
    (∀ line : Line, line.length > 4096 → truncateLine line = line.take 4096)
    ∧ (∀ line : Line, line.length ≤ 4096 → truncateLine line = line)
    ∧ (∀ line : Line, line.length = 5000 →
        truncateLine line = line.take 4096
        ∧ (truncateLine line).length = 4096) := by
  have hgt : ∀ line : Line, line.length > 4096 →
      truncateLine line = line.take 4096 := by
    intro line h
    unfold truncateLine maxLogLine
    rw [if_pos h]
  refine ⟨hgt, ?_, ?_⟩
  · intro line h
    unfold truncateLine maxLogLine
    rw [if_neg (Nat.not_lt.mpr h)]
  · intro line h
    have h5 : line.length > 4096 := by omega
    refine ⟨hgt line h5, ?_⟩
    rw [hgt line h5, List.length_take, h]
    omega

/-- Witness for C5: a concrete 5000 byte line is truncated to its first
4096 bytes. -/
theorem truncate_spec_witness :
    truncateLine (List.replicate 5000 (0 : UInt8))
      = (List.replicate 5000 (0 : UInt8)).take 4096
    ∧ (truncateLine (List.replicate 5000 (0 : UInt8))).length = 4096 :=
  truncate_spec.2.2 (List.replicate 5000 0) (List.length_replicate 5000 0)

/-- The routing state of logger.log: the configured error threshold and
the identities of the all writer and the error writer (indices into the
writer list).  Terminal mirroring depends on the process environment and
is outside every claim, so it is not modelled. -/
structure Router where
  errorLevel : Level
  allW : Nat
  wfW : Nat
  deriving DecidableEq

/-- The sink writes logger.log performs for one formatted line, in order:
when the severity is above the error threshold or is Print, only the all
writer is written; otherwise the all writer is written and, when the error
writer is a distinct writer, the error writer as well. -/
def Router.writeEvents (r : Router) (level : Level) : List Nat :=
  if r.errorLevel < level ∨ level = logPrint then [r.allW]
  else [r.allW] ++ (if r.wfW = r.allW then [] else [r.wfW])

/-- C2: with distinct primary and error writers, an emitted record is
written to both writers exactly when its severity is at least as severe as
the configured error threshold and it is not Print; in every other case,
every Print record included, it is written only to the primary writer. -/
theorem routing_spec :
    ∀ (S E : Sev) (a w : Nat), E ≠ .print → w ≠ a →
      Router.writeEvents ⟨levelValue E, a, w⟩ (levelValue S)
        = if S ≠ .print ∧ verboseRank S ≤ verboseRank E then [a, w]
          else [a] := by
  intro S E a w hE hw
  unfold Router.writeEvents
  rw [if_neg hw]
  cases S <;> cases E <;>
    first
      | exact absurd rfl hE
      | simp [levelValue, verboseRank, logPrint, LogFatal, LogError,
          LogWarn, LogTrace, LogInfo, LogDebug]

/-- Witness for C2: under the default Warn error threshold a Warn record
goes to both writers and a Print record goes only to the primary. -/
theorem routing_spec_witness :
    Router.writeEvents ⟨levelValue Sev.warn, 0, 1⟩ (levelValue Sev.warn)
      = [0, 1]
    ∧ Router.writeEvents ⟨levelValue Sev.warn, 0, 1⟩ (levelValue Sev.print)
      = [0] := by
  constructor
  · exact (routing_spec Sev.warn Sev.warn 0 1 (by decide) (by decide)).trans
      (by decide)
  · exact (routing_spec Sev.print Sev.warn 0 1 (by decide) (by decide)).trans
      (by decide)

/-- DefaultLogPath from config.go. -/
def DefaultLogPath : String := "./log/all.log"

/-- DefaultLogLevel from config.go. -/
def DefaultLogLevel : String := "info"

/-- DefaultErrorLogPath from config.go. -/
def DefaultErrorLogPath : String := "./log/error.log"

/-- DefaultErrorLogLevel from config.go. -/
def DefaultErrorLogLevel : String := "warn"

/-- DefaultBufferedLines = 1 shl 18 from config.go. -/
def DefaultBufferedLines : Int := 262144

/-- The fields of Config that newLogger consults for the claims.  The
package path option only affects call site rendering and no claim touches
it, so it is omitted. -/
structure Config where
  LogPath : String
  LogLevel : String
  ErrorLogPath : String
  ErrorLogLevel : String
  BufferedLines : Int
  deriving DecidableEq

/-- The logger state newLogger builds: the two thresholds, the file paths
of the writers it creates in creation order, and the indices of the all
writer and the error writer among them. -/
structure LoggerModel where
  maxLevel : Level
  errorLevel : Level
  writerPaths : List String
  allW : Nat
  wfW : Nat
  deriving DecidableEq

/-- newLogger with a non-nil config: substitute defaults for empty fields,
create the all writer, and create a second writer for the error path only
when it differs from the primary path, otherwise alias the error sink to
the all writer. -/
def newLogger (config : Config) : LoggerModel :=
  let logPath := if config.LogPath = "" then DefaultLogPath
    else config.LogPath
  let logLevelString := if config.LogLevel = "" then DefaultLogLevel
    else config.LogLevel
  let errorLogPath := if config.ErrorLogPath = "" then DefaultErrorLogPath
    else config.ErrorLogPath
  let errorLogLevelString := if config.ErrorLogLevel = "" then
    DefaultErrorLogLevel else config.ErrorLogLevel
  if errorLogPath ≠ logPath then
    { maxLevel := parseLevel logLevelString
      errorLevel := parseLevel errorLogLevelString
      writerPaths := [logPath, errorLogPath]
      allW := 0
      wfW := 1 }
  else
    { maxLevel := parseLevel logLevelString
      errorLevel := parseLevel errorLogLevelString
      writerPaths := [logPath]
      allW := 0
      wfW := 0 }

/-- The routing state of a constructed logger. -/
def LoggerModel.router (l : LoggerModel) : Router :=
  ⟨l.errorLevel, l.allW, l.wfW⟩

/-- C9: when the effective error path equals the effective primary path,
newLogger creates exactly one writer aliased as both logical sinks, and
every record, in particular one whose severity routes to both sinks, is
written to that writer exactly once, never twice. -/
theorem alias_single_writer :
    ∀ c : Config,
      (if c.ErrorLogPath = "" then DefaultErrorLogPath else c.ErrorLogPath)
        = (if c.LogPath = "" then DefaultLogPath else c.LogPath) →
      (newLogger c).writerPaths.length = 1
      ∧ (newLogger c).wfW = (newLogger c).allW
      ∧ ∀ level : Level,
          ((newLogger c).router).writeEvents level = [(newLogger c).allW]
          ∧ (((newLogger c).router).writeEvents level).count
              ((newLogger c).allW) = 1 := by
  intro c h
  have hL : newLogger c =
      { maxLevel := parseLevel (if c.LogLevel = "" then DefaultLogLevel
          else c.LogLevel)
        errorLevel := parseLevel (if c.ErrorLogLevel = "" then
          DefaultErrorLogLevel else c.ErrorLogLevel)
        writerPaths := [if c.LogPath = "" then DefaultLogPath
          else c.LogPath]
        allW := 0
        wfW := 0 } := by
    simp only [newLogger]
    rw [if_neg (not_not.mpr h)]
  rw [hL]
  refine ⟨rfl, rfl, ?_⟩
  intro level
  constructor
  · simp [LoggerModel.router, Router.writeEvents]
  · simp [LoggerModel.router, Router.writeEvents]

/-- A configuration pointing both sinks at the same file. -/
def cSame : Config :=
  { LogPath := "x.log", LogLevel := "", ErrorLogPath := "x.log",
    ErrorLogLevel := "", BufferedLines := 0 }

/-- Witness for C9 at a concrete configuration with equal paths. -/
theorem alias_single_writer_witness :
    (newLogger cSame).writerPaths.length = 1
    ∧ (newLogger cSame).wfW = (newLogger cSame).allW
    ∧ ((newLogger cSame).router).writeEvents LogWarn
        = [(newLogger cSame).allW] := by
  refine ⟨(alias_single_writer cSame (by decide)).1,
    (alias_single_writer cSame (by decide)).2.1,
    ((alias_single_writer cSame (by decide)).2.2 LogWarn).1⟩

/-- A key and value pair carried in the context, from context.go; the Go
value has interface type, embedded as a type parameter. -/
structure Info (α : Type) where
  Key : String
  Value : α
  deriving DecidableEq

/-- The box stored in a context under the more info key. -/
structure moreInfo (α : Type) where
  infoList : List (Info α)
  deriving DecidableEq

/-- The part of a Go context the more info functions consult: the value
stored under the more info key, if any.  A Go context is persistent:
deriving a child context leaves the parent value untouched, which the
embedding reflects by being purely functional. -/
def LogCtx (α : Type) := Option (moreInfo α)

/-- findMoreInfo from context.go: the stored list, or nil when the key is
absent. -/
def findMoreInfo {α : Type} (ctx : LogCtx α) : List (Info α) :=
  match ctx with
  | none => []
  | some more => more.infoList

/-- WithMoreInfo from context.go: with zero pairs the given context itself
is returned; otherwise a new context is derived storing the old list, when
one is present, followed by the new pairs in argument order. -/
def WithMoreInfo {α : Type} (ctx : LogCtx α) (info : List (Info α)) :
    LogCtx α :=
  if info.length = 0 then ctx
  else
    match ctx with
    | some old => some ⟨old.infoList ++ info⟩
    | none => some ⟨info⟩

/-- C10: WithMoreInfo with zero pairs returns the given context unchanged;
with one or more pairs, findMoreInfo on the derived context yields exactly
the pairs of the original context followed by the new pairs in argument
order, while the original context value itself is untouched (the carried
list is append only and order preserving). -/
theorem withMoreInfo_spec :
    (∀ (α : Type) (ctx : LogCtx α), WithMoreInfo ctx [] = ctx)
    ∧ (∀ (α : Type) (ctx : LogCtx α) (info : List (Info α)), info ≠ [] →
        findMoreInfo (WithMoreInfo ctx info) = findMoreInfo ctx ++ info) := by
  constructor
  · intro α ctx
    rfl
  · intro α ctx info h
    unfold WithMoreInfo
    rw [if_neg (by simpa using h)]
    cases ctx <;> simp [findMoreInfo]

/-- A context already carrying one pair, for the C10 witness. -/
def ctxAB : LogCtx Nat := some ⟨[⟨"a", 1⟩]⟩

/-- Witness for C10: appending one pair to a context carrying one pair
yields the two pairs in order. -/
theorem withMoreInfo_spec_witness :
    findMoreInfo (WithMoreInfo ctxAB [⟨"b", 2⟩])
      = findMoreInfo ctxAB ++ [⟨"b", 2⟩] :=
  withMoreInfo_spec.2 Nat ctxAB [⟨"b", 2⟩] (by simp)
